import Mathlib

/-!
Verification of the storage-value accessor generator
(src/srml/support/src/storage/generator/value.rs).

All operations of the generator address a single slot: every call derives
the same physical key (Twox128 of the static unhashed key) and touches the
raw store only at that key.  The shallow embedding therefore represents the
store state as the raw entry at that key, an `Option Bytes`.  Each raw
store access additionally emits an event so that read/write/kill counts and
codec-capability usage are observable.
-/

namespace Substrate

/-- Raw byte sequences held by the store (byte values are immaterial to the logic). -/
abbrev Bytes := List Nat

/-- The raw entry at the physical key of the slot: absent, or some byte sequence. -/
abbrev SlotState := Option Bytes

/-- Events emitted by the raw-store and codec primitives, used to count
logical reads, writes and deletes and to observe which codec capability ran. -/
inductive Ev
  | read
  | write
  | kill
  | decodeFull
  | decodeLen
deriving DecidableEq, Repr

/-- The serialization codec contract for a value type `T` (spec section 6):
total encode, decode that may fault on malformed input. -/
structure Codec (T : Type) where
  encode : T → Bytes
  decode : Bytes → Except String T

/-- The generator trait `StorageValue<T>`: the Query Adapter pair supplied by the
module, plus the static unhashed key (key derivation itself is the external
hash collaborator and is not modelled; all operations use the one derived key). -/
structure StorageValue (T Q : Type) where
  unhashed_key : Bytes
  from_optional_value_to_query : Option T → Q
  from_query_to_optional_value : Q → Option T

/-- The optional appendable codec capability for `T` with item type `I`
(spec section 6): splices encoded items onto an existing raw buffer, may fault. -/
structure EncodeAppendC (I : Type) where
  append : Bytes → List I → Except String Bytes

/-- Modelled from the spec: raw store existence check at the key,
`exists(key) -> bool`, no side effects (the `unhashed` module is not under src/). -/
def unhashedExists (s : SlotState) : Bool :=
  s.isSome

/-- Modelled from the spec: raw store read `get_raw(key) -> Option<bytes>`,
no state change, one logical read (the `unhashed` module is not under src/). -/
def get_raw (s : SlotState) : Option Bytes × List Ev :=
  (s, [Ev.read])

/-- Modelled from the spec: raw store write `put_raw(key, bytes)`,
unconditional overwrite, one logical write (the `unhashed` module is not under src/). -/
def put_raw (b : Bytes) (_s : SlotState) : SlotState × List Ev :=
  (some b, [Ev.write])

/-- Modelled from the spec: raw store delete `kill(key)`, idempotent,
one logical delete (the `unhashed` module is not under src/). -/
def unhashedKill (_s : SlotState) : SlotState × List Ev :=
  (none, [Ev.kill])

/-- Modelled from the spec: typed `unhashed::get` — reads the raw optional bytes
and decodes when present; a decode fault on present-but-corrupt bytes propagates
(the `unhashed` module is not under src/). One logical read, plus a full-decode
codec call when an entry is present. -/
def unhashedGet (c : Codec T) (s : SlotState) : Except String (Option T) × List Ev :=
  match s with
  | none => (.ok none, [Ev.read])
  | some b =>
    match c.decode b with
    | .ok v => (.ok (some v), [Ev.read, Ev.decodeFull])
    | .error e => (.error e, [Ev.read, Ev.decodeFull])

/-- Modelled from the spec: typed `unhashed::put` — encodes the value and
writes the bytes at the key (the `unhashed` module is not under src/). -/
def unhashedPut (c : Codec T) (v : T) (s : SlotState) : SlotState × List Ev :=
  put_raw (c.encode v) s

/-- `exists` (value.rs lines 55-57): raw existence check at the derived key. -/
def existsOp (s : SlotState) : Bool :=
  unhashedExists s

/-- `get` (value.rs lines 59-62): typed read of the slot, then the read-side
Query Adapter conversion. -/
def get (G : StorageValue T Q) (c : Codec T) (s : SlotState) : Except String Q × List Ev :=
  let ug := unhashedGet c s
  (ug.1.map G.from_optional_value_to_query, ug.2)

/-- `put` (value.rs lines 64-66): encode the (borrowed) value and store it.
`Borrow<T>` is observationally the identity, so the argument is taken as `T`. -/
def put (c : Codec T) (v : T) (s : SlotState) : SlotState × List Ev :=
  unhashedPut c v s

/-- `put_ref` (value.rs lines 68-70): encode the referenced stand-in value
with its own codec and `put_raw` the resulting bytes at the key. -/
def put_ref (encodeArg : A → Bytes) (a : A) (s : SlotState) : SlotState × List Ev :=
  put_raw (encodeArg a) s

/-- `kill` (value.rs lines 72-74): raw delete at the derived key. -/
def kill (s : SlotState) : SlotState × List Ev :=
  unhashedKill s

/-- `mutate` (value.rs lines 76-85): read the current Query via `get`, apply the
closure (modelled as `Q → Q × R`: the mutated query and the returned value),
then write back through the write-side Query Adapter: `put` the `some` case,
`kill` the `none` case; return the closure result. A decode fault in the
initial read propagates (the Rust code diverges there before any write). -/
def mutate (G : StorageValue T Q) (c : Codec T) (f : Q → Q × R) (s : SlotState) :
    Except String (R × SlotState × List Ev) :=
  let g := get G c s
  match g.1 with
  | .error e => .error e
  | .ok val =>
    let p := f val
    match G.from_query_to_optional_value p.1 with
    | some v =>
      let ps := put c v s
      .ok (p.2, ps.1, g.2 ++ ps.2)
    | none =>
      let ks := kill s
      .ok (p.2, ks.1, g.2 ++ ks.2)

/-- `take` (value.rs lines 87-94): typed read at the key; when the decoded value
is present, delete the entry; return the read-side Query Adapter conversion of
the read value. A decode fault propagates before any delete. -/
def take (G : StorageValue T Q) (c : Codec T) (s : SlotState) :
    Except String (Q × SlotState × List Ev) :=
  let ug := unhashedGet c s
  match ug.1 with
  | .error e => .error e
  | .ok value =>
    if value.isSome then
      let ks := unhashedKill s
      .ok (G.from_optional_value_to_query value, ks.1, ug.2 ++ ks.2)
    else
      .ok (G.from_optional_value_to_query value, s, ug.2)

/-- The default encoded bytes used by `append` when no entry exists
(value.rs lines 108-113): run the absent case through the Query Adapter round
trip; encode the resulting value, or the empty byte string when it is `none`. -/
def default_encoded (G : StorageValue T Q) (c : Codec T) : Bytes :=
  match G.from_query_to_optional_value (G.from_optional_value_to_query none) with
  | some value => c.encode value
  | none => []

/-- The `unwrap_or_else` step of `append` (value.rs lines 107-113): the raw
bytes read from storage when present, the default encoded bytes otherwise. -/
def stored_or_default (G : StorageValue T Q) (c : Codec T) (raw : Option Bytes) : Bytes :=
  match raw with
  | some b => b
  | none => default_encoded G c

/-- `append` (value.rs lines 99-121): read the raw bytes at the key (or the
default encoded bytes when absent), splice the items on via the appendable
codec capability, and `put_raw` the result; on a splice fault return the
descriptive error without writing. -/
def append (G : StorageValue T Q) (c : Codec T) (ea : EncodeAppendC I)
    (items : List I) (s : SlotState) : Except String Unit × SlotState × List Ev :=
  let gr := get_raw s
  let encoded_value := stored_or_default G c gr.1
  match ea.append encoded_value items with
  | .error _ => (.error "Could not append given item", s, gr.2)
  | .ok new_val =>
    let ps := put_raw new_val s
    (.ok (), ps.1, gr.2 ++ ps.2)

/-- `append_or_put` (value.rs lines 127-136): try `append`; on failure, `put`
the value collected from the items alone (`FromIterator` is modelled as
`from_iter : List I → T`). -/
def append_or_put (G : StorageValue T Q) (c : Codec T) (ea : EncodeAppendC I)
    (from_iter : List I → T) (items : List I) (s : SlotState) : SlotState × List Ev :=
  let a := append G c ea items s
  match a.1 with
  | .ok _ => (a.2.1, a.2.2)
  | .error _ =>
    let ps := put c (from_iter items) a.2.1
    (ps.1, a.2.2 ++ ps.2)

/-- `decode_len` (value.rs lines 145-158): when an entry is present, run the
length-only decode capability on the raw bytes (a fault propagates); when
absent, the length of the Query Adapter round trip of the absent case, or 0
when that round trip yields `none`. -/
def decode_len (G : StorageValue T Q) (_c : Codec T)
    (decodeLength : Bytes → Except String Nat) (lenOf : T → Nat) (s : SlotState) :
    Except String Nat × List Ev :=
  let gr := get_raw s
  match gr.1 with
  | some k =>
    match decodeLength k with
    | .ok n => (.ok n, gr.2 ++ [Ev.decodeLen])
    | .error e => (.error e, gr.2 ++ [Ev.decodeLen])
  | none =>
    let len :=
      match G.from_query_to_optional_value (G.from_optional_value_to_query none) with
      | some v => lenOf v
      | none => 0
    (.ok len, gr.2)

/-- The write-back step of `mutate` (value.rs lines 80-83), as named by the
claim about mutate: apply the write-side Query Adapter mapping to a query and
either `put` the `some` case or `kill` the `none` case. -/
def write_back (G : StorageValue T Q) (c : Codec T) (q : Q) (s : SlotState) : SlotState :=
  match G.from_query_to_optional_value q with
  | some v => (put c v s).1
  | none => (kill s).1

/-- Spec-side program for the take claim: `get()` immediately followed by
`kill()`, returning the query, the final state and the emitted events. -/
def get_then_kill (G : StorageValue T Q) (c : Codec T) (s : SlotState) :
    Except String (Q × SlotState × List Ev) :=
  let g := get G c s
  match g.1 with
  | .error e => .error e
  | .ok q =>
    let ks := kill s
    .ok (q, ks.1, g.2 ++ ks.2)

/-- Spec-side program for the append-on-absent claim: materialize the default
value by running the absent case through the Query Adapter round trip, encode
it (the empty byte string when the round trip yields `none`), append the items
to it, and put the result; the resulting slot state on success. -/
def materialize_default_append_put (G : StorageValue T Q) (c : Codec T)
    (ea : EncodeAppendC I) (items : List I) : Except String SlotState :=
  let default_bytes :=
    match G.from_query_to_optional_value (G.from_optional_value_to_query none) with
    | some v => c.encode v
    | none => []
  match ea.append default_bytes items with
  | .ok b => .ok (some b)
  | .error e => .error e

/-! ### A concrete instantiation

A length-prefixed list codec over `List Nat`, with the Query convention
"absent reads as the empty list", used to evaluate the theorems on concrete
inputs. -/

/-- A concrete codec: a list is encoded as its length followed by its elements;
decoding faults when the prefix does not match. -/
def cEnc : Codec (List Nat) where
  encode l := l.length :: l
  decode b :=
    match b with
    | [] => .error "empty"
    | n :: rest => if rest.length = n then .ok rest else .error "length mismatch"

/-- A concrete generator: Query is the list itself and absence reads as `[]`. -/
def Gd : StorageValue (List Nat) (List Nat) where
  unhashed_key := [0]
  from_optional_value_to_query v := v.getD []
  from_query_to_optional_value q := some q

/-- The appendable capability of the concrete codec: splice items onto a
well-formed length-prefixed buffer, fault on a malformed one. -/
def eaC : EncodeAppendC Nat where
  append b items :=
    match b with
    | [] => .error "empty"
    | n :: rest =>
      if rest.length = n then .ok ((n + items.length) :: (rest ++ items))
      else .error "length mismatch"

/-- Length-only decode of the concrete codec: read the length prefix without
touching the elements. -/
def dlC (b : Bytes) : Except String Nat :=
  match b with
  | [] => .error "empty"
  | n :: rest => if rest.length = n then .ok n else .error "length mismatch"

/-! ### Helper lemmas -/

/-- The event trace of a `get` is one read, followed by a full decode exactly
when an entry was present. -/
theorem get_trace (G : StorageValue T Q) (c : Codec T) (s : SlotState) :
    (get G c s).2 = [Ev.read] ∨ (get G c s).2 = [Ev.read, Ev.decodeFull] := by
  cases s with
  | none => exact Or.inl rfl
  | some b =>
    cases hd : c.decode b with
    | ok v => exact Or.inr (by simp [get, unhashedGet, hd])
    | error e => exact Or.inr (by simp [get, unhashedGet, hd])

/-- Complete case analysis of `append`: either the splice succeeds and the new
bytes are written, or it fails and the state is returned untouched with no
write event. -/
theorem append_cases (G : StorageValue T Q) (c : Codec T) (ea : EncodeAppendC I)
    (items : List I) (s : SlotState) :
    (∃ b, ea.append (stored_or_default G c s) items = .ok b ∧
       append G c ea items s = (.ok (), some b, [Ev.read, Ev.write])) ∨
    (∃ e, ea.append (stored_or_default G c s) items = .error e ∧
       append G c ea items s = (.error "Could not append given item", s, [Ev.read])) := by
  cases hA : ea.append (stored_or_default G c s) items with
  | ok b =>
    exact Or.inl ⟨b, rfl, by simp [append, get_raw, put_raw, hA]⟩
  | error e =>
    exact Or.inr ⟨e, rfl, by simp [append, get_raw, hA]⟩

/-! ### Claim theorems -/

/-- C1: for every value `v` and every prior store state, `put v` followed by
`get` yields the Query Adapter mapping of `some v`, and `exists` is true after
the put (under the codec round-trip contract `decode (encode v) = ok v`). -/
theorem put_get_roundtrip (G : StorageValue T Q) (c : Codec T) (v : T) (s : SlotState)
    (h : c.decode (c.encode v) = .ok v) :
    (get G c (put c v s).1).1 = .ok (G.from_optional_value_to_query (some v)) ∧
    existsOp (put c v s).1 = true := by
  constructor
  · simp [get, put, unhashedPut, put_raw, unhashedGet, h, Except.map]
  · simp [existsOp, put, unhashedPut, put_raw, unhashedExists]

/-- Witness for C1 at the concrete instantiation, slot initially absent. -/
theorem put_get_roundtrip_witness :
    cEnc.decode (cEnc.encode [5]) = .ok [5] ∧
    ((get Gd cEnc (put cEnc [5] none).1).1 = .ok (Gd.from_optional_value_to_query (some [5])) ∧
     existsOp (put cEnc [5] none).1 = true) :=
  ⟨rfl, put_get_roundtrip Gd cEnc [5] none rfl⟩

/-- C8: for every prior store state, `kill` followed by `get` yields the Query
Adapter mapping of `none` and `exists` is false afterwards; `kill` on an absent
slot is a no-op and `kill` is idempotent. -/
theorem kill_get_spec (G : StorageValue T Q) (c : Codec T) (s : SlotState) :
    (get G c (kill s).1).1 = .ok (G.from_optional_value_to_query none) ∧
    existsOp (kill s).1 = false ∧
    (kill (kill s).1).1 = (kill s).1 ∧
    (kill none).1 = none := by
  refine ⟨rfl, rfl, rfl, rfl⟩

/-- C9: `put_ref` of a stand-in value whose encoding agrees with the encoding
of the corresponding owned value has the identical observable effect to `put`
of that owned value: the same bytes stored at the key, the same events. -/
theorem put_ref_eq_put (c : Codec T) (encodeArg : A → Bytes) (a : A) (t : T)
    (s : SlotState) (h : encodeArg a = c.encode t) :
    put_ref encodeArg a s = put c t s := by
  simp [put_ref, put, unhashedPut, put_raw, h]

/-- Witness for C9: the stand-in type is the value type itself with the same
codec. -/
theorem put_ref_eq_put_witness :
    cEnc.encode [5] = cEnc.encode [5] ∧
    put_ref cEnc.encode [5] none = put cEnc [5] none :=
  ⟨rfl, put_ref_eq_put cEnc cEnc.encode [5] [5] none rfl⟩

/-- C2: whenever the initial read succeeds, `mutate f` returns exactly the
closure result, the post-state equals the write-side Query Adapter mapping of
the mutated query (`put` the `some` case, `kill` the `none` case), and the
event trace holds exactly one logical read and exactly one logical write — a
put or a kill, never both. -/
theorem mutate_spec (G : StorageValue T Q) (c : Codec T) (f : Q → Q × R)
    (s : SlotState) (q : Q) (h : (get G c s).1 = .ok q) :
    ∃ tr, mutate G c f s = .ok ((f q).2, write_back G c (f q).1 s, tr) ∧
      tr.count Ev.read = 1 ∧
      tr.count Ev.write + tr.count Ev.kill = 1 := by
  rcases get_trace G c s with htr | htr <;>
    cases hw : G.from_query_to_optional_value (f q).1
  · exact ⟨[Ev.read, Ev.kill], by simp [mutate, h, hw, htr, kill, unhashedKill, write_back],
      by decide, by decide⟩
  · exact ⟨[Ev.read, Ev.write],
      by simp [mutate, h, hw, htr, put, unhashedPut, put_raw, write_back], by decide, by decide⟩
  · exact ⟨[Ev.read, Ev.decodeFull, Ev.kill],
      by simp [mutate, h, hw, htr, kill, unhashedKill, write_back], by decide, by decide⟩
  · exact ⟨[Ev.read, Ev.decodeFull, Ev.write],
      by simp [mutate, h, hw, htr, put, unhashedPut, put_raw, write_back], by decide, by decide⟩

/-- Witness for C2 at the concrete instantiation: mutating the absent-read
default `[]` by pushing one element, returning `42`. -/
theorem mutate_spec_witness :
    (get Gd cEnc none).1 = .ok ([] : List Nat) ∧
    ∃ tr, mutate Gd cEnc (fun q => (q ++ [7], (42 : Nat))) none =
        .ok (((fun (q : List Nat) => (q ++ [7], (42 : Nat))) []).2,
          write_back Gd cEnc (((fun (q : List Nat) => (q ++ [7], (42 : Nat))) []).1) none, tr) ∧
      tr.count Ev.read = 1 ∧
      tr.count Ev.write + tr.count Ev.kill = 1 :=
  ⟨rfl, mutate_spec Gd cEnc (fun q => (q ++ [7], (42 : Nat))) none [] rfl⟩

/-- C3: `take` is observationally equivalent — in the returned query and the
resulting store state — to `get` immediately followed by `kill`, for every
prior state; and the trace of a successful `take` holds the kill exactly when
an entry was present. -/
theorem take_spec (G : StorageValue T Q) (c : Codec T) (s : SlotState) :
    Except.map (fun p => (p.1, p.2.1)) (take G c s) =
      Except.map (fun p => (p.1, p.2.1)) (get_then_kill G c s) ∧
    ∀ q s1 tr, take G c s = .ok (q, s1, tr) →
      tr.count Ev.kill = (if unhashedExists s then 1 else 0) := by
  constructor
  · cases s with
    | none => rfl
    | some b =>
      cases hd : c.decode b with
      | ok v =>
        simp [take, get_then_kill, get, unhashedGet, hd, kill, unhashedKill, Except.map]
      | error e =>
        simp [take, get_then_kill, get, unhashedGet, hd, Except.map]
  · intro q s1 tr h
    cases s with
    | none =>
      simp [take, unhashedGet, unhashedExists] at h ⊢
      rcases h with ⟨_, _, h3⟩
      simp [← h3]
    | some b =>
      cases hd : c.decode b with
      | ok v =>
        simp [take, unhashedGet, unhashedKill, hd, unhashedExists] at h ⊢
        rcases h with ⟨_, _, h3⟩
        simp [← h3]
      | error e =>
        simp [take, unhashedGet, hd] at h

/-- Witness for C3 at the concrete instantiation with a present entry. -/
theorem take_spec_witness :
    (Except.map (fun p => (p.1, p.2.1)) (take Gd cEnc (some (cEnc.encode [5]))) =
      Except.map (fun p => (p.1, p.2.1)) (get_then_kill Gd cEnc (some (cEnc.encode [5])))) ∧
    take Gd cEnc (some (cEnc.encode [5])) =
      .ok ([5], none, [Ev.read, Ev.decodeFull, Ev.kill]) ∧
    List.count Ev.kill [Ev.read, Ev.decodeFull, Ev.kill] =
      (if unhashedExists (some (cEnc.encode [5])) then 1 else 0) :=
  ⟨(take_spec Gd cEnc (some (cEnc.encode [5]))).1, rfl,
    (take_spec Gd cEnc (some (cEnc.encode [5]))).2 [5] none
      [Ev.read, Ev.decodeFull, Ev.kill] rfl⟩

/-- C4: `append` on an absent slot produces exactly the state of the spec-side
program — materialize the encoded default via the Query Adapter round trip,
append the items, put the result — and hence the same subsequent `get`. -/
theorem append_absent_default (G : StorageValue T Q) (c : Codec T)
    (ea : EncodeAppendC I) (items : List I) (s1 : SlotState)
    (h : materialize_default_append_put G c ea items = .ok s1) :
    (append G c ea items none).2.1 = s1 ∧
    (get G c (append G c ea items none).2.1).1 = (get G c s1).1 := by
  have hd : materialize_default_append_put G c ea items =
      (match ea.append (default_encoded G c) items with
       | .ok b => .ok (some b)
       | .error e => .error e) := rfl
  rw [hd] at h
  cases hA : ea.append (default_encoded G c) items with
  | ok b =>
    rw [hA] at h
    simp at h
    subst h
    have h2 : (append G c ea items none).2.1 = some b := by
      simp [append, get_raw, stored_or_default, put_raw, hA]
    exact ⟨h2, by rw [h2]⟩
  | error e =>
    rw [hA] at h
    simp at h

/-- Witness for C4 at the concrete instantiation: appending `[5]` to an absent
slot yields the bytes of the default `[]` spliced with `5`. -/
theorem append_absent_default_witness :
    materialize_default_append_put Gd cEnc eaC [5] = .ok (some [1, 5]) ∧
    ((append Gd cEnc eaC [5] none).2.1 = some [1, 5] ∧
     (get Gd cEnc (append Gd cEnc eaC [5] none).2.1).1 = (get Gd cEnc (some [1, 5])).1) :=
  ⟨rfl, append_absent_default Gd cEnc eaC [5] (some [1, 5]) rfl⟩

/-- C5: `append_or_put` never faults — it always leaves a present value — and
whenever the underlying `append` fails, the post-state is exactly the encoding
of a fresh collection built solely from the given items. -/
theorem append_or_put_spec (G : StorageValue T Q) (c : Codec T) (ea : EncodeAppendC I)
    (from_iter : List I → T) (items : List I) (s : SlotState) :
    (append_or_put G c ea from_iter items s).1.isSome = true ∧
    (∀ e, (append G c ea items s).1 = .error e →
      (append_or_put G c ea from_iter items s).1 = some (c.encode (from_iter items))) := by
  rcases append_cases G c ea items s with ⟨b, hA, hE⟩ | ⟨e0, hA, hE⟩
  · refine ⟨by simp [append_or_put, hE], ?_⟩
    intro e he
    rw [hE] at he
    simp at he
  · refine ⟨by simp [append_or_put, hE, put, unhashedPut, put_raw], ?_⟩
    intro e he
    simp [append_or_put, hE, put, unhashedPut, put_raw]

/-- Witness for C5 at the concrete instantiation: the slot holds the corrupt
bytes `[5]`, so the splice fails and the slot is overwritten with the encoding
of the fresh collection `[9]`. -/
theorem append_or_put_spec_witness :
    (append_or_put Gd cEnc eaC (fun l => l) [9] (some [5])).1.isSome = true ∧
    (append Gd cEnc eaC [9] (some [5])).1 = .error "Could not append given item" ∧
    (append_or_put Gd cEnc eaC (fun l => l) [9] (some [5])).1 = some (cEnc.encode [9]) :=
  ⟨(append_or_put_spec Gd cEnc eaC (fun l => l) [9] (some [5])).1, rfl,
    (append_or_put_spec Gd cEnc eaC (fun l => l) [9] (some [5])).2
      "Could not append given item" rfl⟩

/-- C6: `decode_len` on an absent slot returns ok of the default length via the
Query Adapter round trip (0 when the round trip yields none); on a present,
validly-encoded collection it returns ok of the item count with only the
length-only decode capability running (no full decode in the trace); and a
length-decode fault on present bytes propagates as an explicit error. -/
theorem decode_len_spec (G : StorageValue T Q) (c : Codec T)
    (decodeLength : Bytes → Except String Nat) (lenOf : T → Nat) :
    ((decode_len G c decodeLength lenOf none).1 = .ok
      (match G.from_query_to_optional_value (G.from_optional_value_to_query none) with
       | some v => lenOf v
       | none => 0)) ∧
    (∀ v, decodeLength (c.encode v) = .ok (lenOf v) →
      decode_len G c decodeLength lenOf (some (c.encode v)) =
        (.ok (lenOf v), [Ev.read, Ev.decodeLen])) ∧
    (∀ b e, decodeLength b = .error e →
      (decode_len G c decodeLength lenOf (some b)).1 = .error e) := by
  refine ⟨rfl, ?_, ?_⟩
  · intro v hv
    simp [decode_len, get_raw, hv]
  · intro b e hb
    simp [decode_len, get_raw, hb]

/-- Witness for C6 at the concrete instantiation: absent slot gives the default
length 0; the valid encoding of `[5, 7]` gives 2 via the length prefix alone;
the malformed bytes `[5]` give an explicit error. -/
theorem decode_len_spec_witness :
    (decode_len Gd cEnc dlC List.length none).1 = .ok 0 ∧
    dlC (cEnc.encode [5, 7]) = .ok (List.length [5, 7]) ∧
    decode_len Gd cEnc dlC List.length (some (cEnc.encode [5, 7])) =
      (.ok (List.length [5, 7]), [Ev.read, Ev.decodeLen]) ∧
    dlC [5] = .error "length mismatch" ∧
    (decode_len Gd cEnc dlC List.length (some [5])).1 = .error "length mismatch" :=
  ⟨rfl, rfl, (decode_len_spec Gd cEnc dlC List.length).2.1 [5, 7] rfl, rfl,
    (decode_len_spec Gd cEnc dlC List.length).2.2 [5] "length mismatch" rfl⟩

/-- C7: when the low-level splice rejects, `append` returns the descriptive
error and performs no write: the raw entry (present or absent) is left exactly
as it was and the trace holds the single read only. -/
theorem append_fail_no_write (G : StorageValue T Q) (c : Codec T) (ea : EncodeAppendC I)
    (items : List I) (s : SlotState) (e : String)
    (h : ea.append (stored_or_default G c s) items = .error e) :
    append G c ea items s = (.error "Could not append given item", s, [Ev.read]) := by
  simp [append, get_raw, h]

/-- Witness for C7 at the concrete instantiation: splicing onto the corrupt
bytes `[5]` fails, the error is returned and the corrupt entry stays intact. -/
theorem append_fail_no_write_witness :
    eaC.append (stored_or_default Gd cEnc (some [5])) [3] = .error "length mismatch" ∧
    append Gd cEnc eaC [3] (some [5]) =
      (.error "Could not append given item", some [5], [Ev.read]) :=
  ⟨rfl, append_fail_no_write Gd cEnc eaC [3] (some [5]) "length mismatch" rfl⟩

/-- C10: whenever `append` returns ok it has written, so `exists` is true
afterwards — for every prior state and any items, the empty sequence included;
and when splicing zero items onto the default bytes returns them unchanged, a
successful empty append on an absent slot persists exactly the encoded default
(the empty byte string when the round trip of the absent case yields none). -/
theorem append_ok_exists (G : StorageValue T Q) (c : Codec T) (ea : EncodeAppendC I)
    (items : List I) (s : SlotState) :
    (∀ u s1 tr, append G c ea items s = (.ok u, s1, tr) → existsOp s1 = true) ∧
    (ea.append (default_encoded G c) ([] : List I) = .ok (default_encoded G c) →
      (append G c ea ([] : List I) none).2.1 = some (default_encoded G c)) := by
  constructor
  · intro u s1 tr h
    rcases append_cases G c ea items s with ⟨b, hA, hE⟩ | ⟨e, hA, hE⟩
    · rw [hE] at h
      simp only [Prod.mk.injEq] at h
      obtain ⟨-, h2, -⟩ := h
      simp [← h2, existsOp, unhashedExists]
    · rw [hE] at h
      simp at h
  · intro h0
    simp [append, get_raw, stored_or_default, put_raw, h0]

/-- Witness for C10 at the concrete instantiation: a successful append of `[5]`
on an absent slot makes `exists` true, and a successful empty append on an
absent slot persists the encoded default `[0]`. -/
theorem append_ok_exists_witness :
    append Gd cEnc eaC [5] none = (.ok (), some [1, 5], [Ev.read, Ev.write]) ∧
    existsOp (some [1, 5]) = true ∧
    eaC.append (default_encoded Gd cEnc) ([] : List Nat) = .ok (default_encoded Gd cEnc) ∧
    (append Gd cEnc eaC ([] : List Nat) none).2.1 = some (default_encoded Gd cEnc) :=
  ⟨rfl, (append_ok_exists Gd cEnc eaC [5] none).1 () (some [1, 5]) [Ev.read, Ev.write] rfl,
    rfl, (append_ok_exists Gd cEnc eaC [5] none).2 rfl⟩

end Substrate
